import Mathlib

/-!
Verification of the user-account service in `User_Server/main.py`.

The service registers users (`POST /users` → `create_user`), lists them
(`GET /users` → `get_users`, `GET /users/{id}` → `get_user`) and
authenticates login attempts (`POST /login` → `login`) against a single
SQLite table `users(id INTEGER PRIMARY KEY AUTOINCREMENT, username TEXT
NOT NULL UNIQUE, email TEXT NOT NULL, password TEXT NOT NULL, created_at
TEXT NOT NULL)`.  Passwords are stored as
`hashlib.sha256(password.encode("utf-8")).hexdigest()`.

The embedding below models the table as a list of rows in insertion
(rowid) order together with the AUTOINCREMENT counter, and models
`hash_password` by a full executable SHA-256 over the UTF-8 bytes of the
input, rendered as 64 lowercase hex characters, exactly as `hashlib`
does.  `datetime.utcnow().isoformat()` is an external input and enters
`create_user` as an explicit `now : String` parameter.
-/

namespace UserServer

/-! ## SHA-256 over `Nat` (the `hashlib.sha256(...).hexdigest()` call) -/

/-- 32-bit modulus. -/
def M32 : Nat := 2 ^ 32

/-- Addition modulo 2^32. -/
def add32 (a b : Nat) : Nat := (a + b) % M32

/-- Right rotation of a 32-bit word by `n` bits. -/
def rotWord (n x : Nat) : Nat := x / 2 ^ n + x % 2 ^ n * 2 ^ (32 - n)

/-- Logical right shift. -/
def shr (n x : Nat) : Nat := x / 2 ^ n

/-- Bitwise complement on 32 bits. -/
def not32 (x : Nat) : Nat := x ^^^ 4294967295

/-- The SHA-256 round constants (FIPS 180-4, in decimal). -/
def K : List Nat :=
  [1116352408, 1899447441, 3049323471, 3921009573,
   961987163, 1508970993, 2453635748, 2870763221,
   3624381080, 310598401, 607225278, 1426881987,
   1925078388, 2162078206, 2614888103, 3248222580,
   3835390401, 4022224774, 264347078, 604807628,
   770255983, 1249150122, 1555081692, 1996064986,
   2554220882, 2821834349, 2952996808, 3210313671,
   3336571891, 3584528711, 113926993, 338241895,
   666307205, 773529912, 1294757372, 1396182291,
   1695183700, 1986661051, 2177026350, 2456956037,
   2730485921, 2820302411, 3259730800, 3345764771,
   3516065817, 3600352804, 4094571909, 275423344,
   430227734, 506948616, 659060556, 883997877,
   958139571, 1322822218, 1537002063, 1747873779,
   1955562222, 2024104815, 2227730452, 2361852424,
   2428436474, 2756734187, 3204031479, 3329325298]

/-- The eight working variables of the compression function. -/
structure Hs where
  a : Nat
  b : Nat
  c : Nat
  d : Nat
  e : Nat
  f : Nat
  g : Nat
  h : Nat
deriving Repr, DecidableEq

/-- The SHA-256 initial hash value. -/
def initH : Hs :=
  ⟨1779033703, 3144134277, 1013904242, 2773480762,
   1359893119, 2600822924, 528734635, 1541459225⟩

/-- σ0 of the message schedule. -/
def schedSig0 (x : Nat) : Nat := rotWord 7 x ^^^ rotWord 18 x ^^^ shr 3 x

/-- σ1 of the message schedule. -/
def schedSig1 (x : Nat) : Nat := rotWord 17 x ^^^ rotWord 19 x ^^^ shr 10 x

/-- Σ0 of the round function. -/
def roundSig0 (x : Nat) : Nat := rotWord 2 x ^^^ rotWord 13 x ^^^ rotWord 22 x

/-- Σ1 of the round function. -/
def roundSig1 (x : Nat) : Nat := rotWord 6 x ^^^ rotWord 11 x ^^^ rotWord 25 x

/-- Extend the 16 block words to the 64-entry message schedule. -/
def extendSchedule (w16 : List Nat) : List Nat :=
  (List.range 48).foldl
    (fun ws _ =>
      let i := ws.length
      ws ++ [add32 (add32 (ws.getD (i - 16) 0) (schedSig0 (ws.getD (i - 15) 0)))
                   (add32 (ws.getD (i - 7) 0) (schedSig1 (ws.getD (i - 2) 0)))])
    w16

/-- One SHA-256 round, consuming a schedule word paired with its constant. -/
def roundStep (s : Hs) (wk : Nat × Nat) : Hs :=
  let t1 := add32 (add32 (add32 (add32 s.h (roundSig1 s.e))
              ((s.e &&& s.f) ^^^ (not32 s.e &&& s.g))) wk.2) wk.1
  let t2 := add32 (roundSig0 s.a) ((s.a &&& s.b) ^^^ (s.a &&& s.c) ^^^ (s.b &&& s.c))
  ⟨add32 t1 t2, s.a, s.b, s.c, add32 s.d t1, s.e, s.f, s.g⟩

/-- Compress one 64-byte block (given as 16 big-endian words) into the state. -/
def compress (h0 : Hs) (block : List Nat) : Hs :=
  let ws := extendSchedule block
  let s := (ws.zip K).foldl roundStep h0
  ⟨add32 h0.a s.a, add32 h0.b s.b, add32 h0.c s.c, add32 h0.d s.d,
   add32 h0.e s.e, add32 h0.f s.f, add32 h0.g s.g, add32 h0.h s.h⟩

/-- Split a byte stream into 64-byte blocks; the fuel bounds the number of
blocks and is at least the list length, so it never runs out. -/
def toBlocksF : Nat → List Nat → List (List Nat)
  | _, [] => []
  | 0, _ => []
  | fuel + 1, l => l.take 64 :: toBlocksF fuel (l.drop 64)

/-- Split the padded byte stream into 64-byte blocks. -/
def toBlocks (l : List Nat) : List (List Nat) := toBlocksF l.length l

/-- Pack bytes into 32-bit words, big-endian. -/
def toWordsBE : List Nat → List Nat
  | a :: b :: c :: d :: rest => (a * 2 ^ 24 + b * 2 ^ 16 + c * 2 ^ 8 + d) :: toWordsBE rest
  | _ => []

/-- The 8-byte big-endian rendering of the message bit length. -/
def lenBytes8 (n : Nat) : List Nat :=
  [n / 2 ^ 56 % 256, n / 2 ^ 48 % 256, n / 2 ^ 40 % 256, n / 2 ^ 32 % 256,
   n / 2 ^ 24 % 256, n / 2 ^ 16 % 256, n / 2 ^ 8 % 256, n % 256]

/-- SHA-256 padding: 0x80, zeros to 56 mod 64, then the 64-bit bit length. -/
def padMsg (msg : List Nat) : List Nat :=
  msg ++ [128] ++ List.replicate ((119 - msg.length % 64) % 64) 0 ++ lenBytes8 (8 * msg.length)

/-- SHA-256 of a byte list, as the final eight-word state. -/
def sha256Words (msg : List Nat) : Hs :=
  ((toBlocks (padMsg msg)).map toWordsBE).foldl compress initH

/-- Big-endian bytes of a 32-bit word. -/
def wordBE (w : Nat) : List Nat :=
  [w / 2 ^ 24 % 256, w / 2 ^ 16 % 256, w / 2 ^ 8 % 256, w % 256]

/-- The 32 digest bytes of a final state. -/
def digestBytes (s : Hs) : List Nat :=
  wordBE s.a ++ wordBE s.b ++ wordBE s.c ++ wordBE s.d ++
  wordBE s.e ++ wordBE s.f ++ wordBE s.g ++ wordBE s.h

/-- The sixteen lowercase hex digits. -/
def hexDigits : List Char := "0123456789abcdef".data

/-- The lowercase hex digit of a nibble. -/
def hexChar (n : Nat) : Char := hexDigits.getD n '0'

/-- Two lowercase hex characters of a byte. -/
def byteHex (b : Nat) : List Char := [hexChar (b / 16 % 16), hexChar (b % 16)]

/-- UTF-8 bytes of a character (what Python's `str.encode("utf-8")` emits). -/
def encodeChar (c : Char) : List Nat :=
  let n := c.toNat
  if n < 128 then [n]
  else if n < 2048 then [192 ||| n >>> 6, 128 ||| (n &&& 63)]
  else if n < 65536 then
    [224 ||| n >>> 12, 128 ||| (n >>> 6 &&& 63), 128 ||| (n &&& 63)]
  else
    [240 ||| n >>> 18, 128 ||| (n >>> 12 &&& 63), 128 ||| (n >>> 6 &&& 63),
     128 ||| (n &&& 63)]

/-- UTF-8 byte stream of a string. -/
def utf8Bytes (s : String) : List Nat := s.data.flatMap encodeChar

/-- `hash_password(password) = hashlib.sha256(password.encode("utf-8")).hexdigest()`. -/
def hash_password (password : String) : String :=
  String.mk ((digestBytes (sha256Words (utf8Bytes password))).flatMap byteHex)

/-! ## Data model: the `users` table and the request/response shapes -/

/-- One row of the `users` table. -/
structure UserRow where
  id : Nat
  username : String
  email : String
  password : String
  created_at : String
deriving Repr, DecidableEq

/-- The store: rows in insertion (rowid) order, plus the AUTOINCREMENT
counter for the next `id`. -/
structure DB where
  rows : List UserRow
  nextId : Nat
deriving Repr, DecidableEq

/-- `init_db()`: the table exists and is empty; SQLite AUTOINCREMENT
assigns ids starting from 1. -/
def init_db : DB := ⟨[], 1⟩

/-- Request body of `POST /users` (pydantic model `UserCreate`). -/
structure UserCreate where
  username : String
  email : String
  password : String
deriving Repr, DecidableEq

/-- Request body of `POST /login` (pydantic model `UserLogin`). -/
structure UserLogin where
  username : String
  password : String
deriving Repr, DecidableEq

/-- A FastAPI `HTTPException(status_code, detail)`. -/
structure HTTPException where
  status_code : Nat
  detail : String
deriving Repr, DecidableEq

/-- A `{"message": ...}` response body. -/
structure Message where
  message : String
deriving Repr, DecidableEq

/-- The `{id, username, email, created_at}` projection returned by the two
GET endpoints (`SELECT id, username, email, created_at FROM users`). -/
structure UserOut where
  id : Nat
  username : String
  email : String
  created_at : String
deriving Repr, DecidableEq

/-- The projection of a row onto the four selected columns. -/
def rowOut (r : UserRow) : UserOut := ⟨r.id, r.username, r.email, r.created_at⟩

/-! ## The four endpoint handlers

Mutating handlers are state-passing (`DB → ... → DB × Except ...`): the
returned `DB` is the table after the request.  `GET` handlers only run
`SELECT`, so they are functions of the store. -/

/-- `GET /users`: `SELECT id, username, email, created_at FROM users`,
one JSON object per row, in rowid order. -/
def get_users (db : DB) : List UserOut := db.rows.map rowOut

/-- `GET /users/{user_id}`: select the row with the given id (`fetchone`
takes the first match); 404 `"User not found"` when there is none. -/
def get_user (db : DB) (user_id : Int) : Except HTTPException UserOut :=
  match db.rows.find? (fun r => (r.id : Int) == user_id) with
  | none => .error ⟨404, "User not found"⟩
  | some r => .ok (rowOut r)

/-- `POST /users`: hash the password, insert the row; a duplicate username
violates the UNIQUE constraint, raising `sqlite3.IntegrityError` before
`commit`, so the store is unchanged and the client gets 400.  On success
the row is appended with the next AUTOINCREMENT id and the constant
success message is returned. -/
def create_user (db : DB) (u : UserCreate) (now : String) :
    DB × Except HTTPException Message :=
  if db.rows.any (fun r => r.username == u.username) then
    (db, .error ⟨400, "이미 존재하는 유저입니다."⟩)
  else
    (⟨db.rows ++ [⟨db.nextId, u.username, u.email, hash_password u.password, now⟩],
      db.nextId + 1⟩,
     .ok ⟨"회원가입 성공!"⟩)

/-- `POST /login`: `SELECT password FROM users WHERE username = ?`,
`fetchone`; 404 when no row, 400 when the hash of the supplied password
differs from the stored digest, otherwise the welcome message.  Only a
`SELECT` runs, so the store is returned unchanged. -/
def login (db : DB) (u : UserLogin) : DB × Except HTTPException Message :=
  match db.rows.find? (fun r => r.username == u.username) with
  | none => (db, .error ⟨404, "아이디 또는 비밀번호가 다릅니다."⟩)
  | some r =>
    if hash_password u.password ≠ r.password then
      (db, .error ⟨400, "비밀번호가 다릅니다."⟩)
    else
      (db, .ok ⟨u.username ++ "님 환영합니다."⟩)

/-- Store states reachable from a fresh database by any sequence of
requests (the GET handlers run only `SELECT` and pass the store through
unchanged, so the mutating steps are `POST /users` and `POST /login`). -/
inductive Reachable : DB → Prop where
  | init : Reachable init_db
  | create (db : DB) (u : UserCreate) (now : String) :
      Reachable db → Reachable (create_user db u now).1
  | loginStep (db : DB) (u : UserLogin) :
      Reachable db → Reachable (login db u).1

/-! ## Basic lemmas about the handlers -/

/-- The row inserted by a successful registration. -/
def newRow (db : DB) (u : UserCreate) (now : String) : UserRow :=
  ⟨db.nextId, u.username, u.email, hash_password u.password, now⟩

/-- Registration against a table that already holds the username hits the
UNIQUE constraint: 400, store unchanged. -/
theorem create_user_dup {db : DB} {u : UserCreate} {now : String} (r : UserRow)
    (hr : r ∈ db.rows) (hname : r.username = u.username) :
    create_user db u now = (db, .error ⟨400, "이미 존재하는 유저입니다."⟩) := by
  have hany : db.rows.any (fun r => r.username == u.username) = true := by
    rw [List.any_eq_true]
    exact ⟨r, hr, by simp [hname]⟩
  unfold create_user
  simp [hany]

/-- Registration of a fresh username appends the hashed row and reports
the constant success message. -/
theorem create_user_new {db : DB} {u : UserCreate} {now : String}
    (h : ∀ r ∈ db.rows, r.username ≠ u.username) :
    create_user db u now =
      (⟨db.rows ++ [newRow db u now], db.nextId + 1⟩, .ok ⟨"회원가입 성공!"⟩) := by
  have hany : db.rows.any (fun r => r.username == u.username) = false := by
    rw [List.any_eq_false]
    intro r hr
    simp [h r hr]
  unfold create_user
  simp [hany, newRow]

/-- Inversion of a successful registration: the username was fresh, the
new store is the old one plus the hashed row, and the message is the
constant one. -/
theorem create_user_ok_elim {db db' : DB} {u : UserCreate} {now : String} {m : Message}
    (h : create_user db u now = (db', .ok m)) :
    (∀ r ∈ db.rows, r.username ≠ u.username) ∧
    db' = ⟨db.rows ++ [newRow db u now], db.nextId + 1⟩ ∧
    m = ⟨"회원가입 성공!"⟩ := by
  by_cases hany : db.rows.any (fun r => r.username == u.username) = true
  · rw [show create_user db u now = (db, .error ⟨400, "이미 존재하는 유저입니다."⟩) from by
      unfold create_user; simp [hany]] at h
    have h2 : (Except.error ⟨400, "이미 존재하는 유저입니다."⟩ : Except HTTPException Message) = .ok m :=
      congrArg Prod.snd h
    injection h2
  · have hfresh : ∀ r ∈ db.rows, r.username ≠ u.username := by
      rw [Bool.not_eq_true, List.any_eq_false] at hany
      intro r hr
      simpa using hany r hr
    rw [create_user_new hfresh] at h
    have h2 : (Except.ok ⟨"회원가입 성공!"⟩ : Except HTTPException Message) = .ok m :=
      congrArg Prod.snd h
    injection h2 with h3
    exact ⟨hfresh, (congrArg Prod.fst h).symm, h3.symm⟩

/-- A login for an absent username is a 404. -/
theorem login_no_user {db : DB} {u : UserLogin}
    (h : db.rows.find? (fun r => r.username == u.username) = none) :
    login db u = (db, .error ⟨404, "아이디 또는 비밀번호가 다릅니다."⟩) := by
  unfold login
  rw [h]

/-- A login for a present username compares the hash of the supplied
password against the stored digest of the first matching row. -/
theorem login_found {db : DB} {u : UserLogin} {r : UserRow}
    (h : db.rows.find? (fun r => r.username == u.username) = some r) :
    login db u =
      if hash_password u.password ≠ r.password then
        (db, .error ⟨400, "비밀번호가 다릅니다."⟩)
      else
        (db, .ok ⟨u.username ++ "님 환영합니다."⟩) := by
  unfold login
  rw [h]

/-- A login request runs only a `SELECT`: the store comes back unchanged. -/
theorem login_fst (db : DB) (u : UserLogin) : (login db u).1 = db := by
  rcases h : db.rows.find? (fun r => r.username == u.username) with _ | r
  · rw [login_no_user h]
  · rw [login_found h]
    by_cases hp : hash_password u.password ≠ r.password
    · rw [if_pos hp]
    · rw [if_neg hp]

/-- A reachability step through a known evaluation of `create_user`. -/
theorem reachable_of_create {db db' : DB} {u : UserCreate} {now : String}
    {res : Except HTTPException Message}
    (h : Reachable db) (he : create_user db u now = (db', res)) : Reachable db' := by
  have hc := Reachable.create db u now h
  rw [he] at hc
  exact hc

/-! ## The reachable-state invariant -/

/-- Invariant of every reachable store: ids are below the AUTOINCREMENT
counter, strictly increasing along the insertion order, usernames are
pairwise distinct, and every stored password is a `hash_password` image. -/
def Inv (db : DB) : Prop :=
  (∀ r ∈ db.rows, r.id < db.nextId) ∧
  db.rows.Pairwise (fun r s => r.id < s.id) ∧
  db.rows.Pairwise (fun r s => r.username ≠ s.username) ∧
  ∀ r ∈ db.rows, ∃ p, r.password = hash_password p

/-- Every reachable store satisfies the invariant. -/
theorem reachable_inv {db : DB} (h : Reachable db) : Inv db := by
  induction h with
  | init =>
    exact ⟨by simp [init_db], by simp [init_db], by simp [init_db], by simp [init_db]⟩
  | loginStep db u _ ih =>
    rw [login_fst]
    exact ih
  | create db u now _ ih =>
    obtain ⟨hid, hlt, huniq, hpw⟩ := ih
    by_cases hdup : ∃ r ∈ db.rows, r.username = u.username
    · obtain ⟨r, hr, hname⟩ := hdup
      rw [create_user_dup r hr hname]
      exact ⟨hid, hlt, huniq, hpw⟩
    · push_neg at hdup
      rw [create_user_new hdup]
      refine ⟨?_, ?_, ?_, ?_⟩
      · intro r hr
        rcases List.mem_append.mp hr with hold | hnew
        · exact Nat.lt_succ_of_lt (hid r hold)
        · rw [List.mem_singleton.mp hnew]
          exact Nat.lt_succ_self _
      · refine List.pairwise_append.mpr ⟨hlt, List.pairwise_singleton .., ?_⟩
        intro r hr s hs
        rw [List.mem_singleton.mp hs]
        exact hid r hr
      · refine List.pairwise_append.mpr ⟨huniq, List.pairwise_singleton .., ?_⟩
        intro r hr s hs
        rw [List.mem_singleton.mp hs]
        exact hdup r hr
      · intro r hr
        rcases List.mem_append.mp hr with hold | hnew
        · exact hpw r hold
        · rw [List.mem_singleton.mp hnew]
          exact ⟨u.password, rfl⟩

/-! ## Shape of `hash_password` output -/

/-- Every `hexChar` output is one of the sixteen lowercase hex digits. -/
theorem hexChar_mem (n : Nat) : hexChar n ∈ hexDigits := by
  unfold hexChar
  rw [List.getD_eq_getElem?_getD]
  rcases h : hexDigits[n]? with _ | c
  · show '0' ∈ hexDigits
    decide
  · simpa using List.getElem?_mem h

/-- Hex rendering doubles the byte count. -/
theorem length_flatMap_byteHex (l : List Nat) : (l.flatMap byteHex).length = 2 * l.length := by
  induction l with
  | nil => rfl
  | cons a l ih =>
    simp only [List.flatMap_cons, List.length_append, ih, byteHex, List.length_cons,
      List.length_nil, List.length_cons]
    omega

/-- Every character of a hex rendering is a lowercase hex digit. -/
theorem mem_flatMap_byteHex {c : Char} {l : List Nat} (h : c ∈ l.flatMap byteHex) :
    c ∈ hexDigits := by
  rw [List.mem_flatMap] at h
  obtain ⟨b, _, hc⟩ := h
  simp only [byteHex, List.mem_cons, List.not_mem_nil, or_false] at hc
  rcases hc with rfl | rfl <;> exact hexChar_mem _

/-- A final SHA-256 state always yields 32 digest bytes. -/
theorem digestBytes_length (s : Hs) : (digestBytes s).length = 32 := by
  simp [digestBytes, wordBE]

/-! ## Lookup lemmas -/

/-- After inserting a fresh username, the login lookup finds exactly the
inserted row. -/
theorem find?_newRow {db : DB} {u : UserCreate} {now : String}
    (hfresh : ∀ r ∈ db.rows, r.username ≠ u.username) :
    (db.rows ++ [newRow db u now]).find? (fun r => r.username == u.username) =
      some (newRow db u now) := by
  rw [List.find?_append]
  have h1 : db.rows.find? (fun r => r.username == u.username) = none :=
    List.find?_eq_none.mpr (fun r hr => by simp [hfresh r hr])
  rw [h1]
  simp [newRow]

/-- With strictly increasing ids, the id lookup of a present row returns
exactly that row. -/
theorem find?_by_id {l : List UserRow} (hp : l.Pairwise (fun r s => r.id < s.id))
    {r : UserRow} (hr : r ∈ l) {uid : Int} (hid : (r.id : Int) = uid) :
    l.find? (fun s => (s.id : Int) == uid) = some r := by
  induction l with
  | nil => cases hr
  | cons a l ih =>
    rcases List.mem_cons.mp hr with rfl | hmem
    · exact List.find?_cons_of_pos (p := fun (s : UserRow) => (s.id : Int) == uid) _ (by simp [hid])
    · have hlt := (List.pairwise_cons.mp hp).1 r hmem
      have ha : ¬ ((a.id : Int) == uid) = true := by
        simp only [beq_iff_eq]
        intro hc
        rw [← hid] at hc
        have : a.id = r.id := by exact_mod_cast hc
        omega
      rw [List.find?_cons_of_neg (p := fun (s : UserRow) => (s.id : Int) == uid) _ ha]
      exact ih (List.pairwise_cons.mp hp).2 hmem

/-- `get_user` factors through the password-erasing projection of the
lookup result. -/
theorem get_user_eq (db : DB) (uid : Int) :
    get_user db uid =
      match Option.map rowOut (db.rows.find? (fun r => (r.id : Int) == uid)) with
      | none => .error ⟨404, "User not found"⟩
      | some o => .ok o := by
  unfold get_user
  rcases h : db.rows.find? (fun r => (r.id : Int) == uid) with _ | r <;> rw [h] <;> rfl

/-- Row lists that agree after erasing passwords produce the same
projected lookup result for every id. -/
theorem find?_map_rowOut : ∀ (l1 l2 : List UserRow), l1.map rowOut = l2.map rowOut →
    ∀ uid : Int,
      Option.map rowOut (l1.find? (fun r => (r.id : Int) == uid)) =
      Option.map rowOut (l2.find? (fun r => (r.id : Int) == uid))
  | [], [], _, _ => rfl
  | [], _ :: _, h, _ => by simp at h
  | _ :: _, [], h, _ => by simp at h
  | a :: l1, b :: l2, h, uid => by
    simp only [List.map_cons, List.cons.injEq] at h
    obtain ⟨hab, htl⟩ := h
    have hid : a.id = b.id := congrArg UserOut.id hab
    by_cases hc : ((a.id : Int) == uid) = true
    · rw [List.find?_cons_of_pos (p := fun (r : UserRow) => (r.id : Int) == uid) _ hc,
        List.find?_cons_of_pos (p := fun (r : UserRow) => (r.id : Int) == uid) _ (by show ((b.id : Int) == uid) = true; rw [← hid]; exact hc)]
      simp [hab]
    · rw [List.find?_cons_of_neg (p := fun (r : UserRow) => (r.id : Int) == uid) _ hc,
        List.find?_cons_of_neg (p := fun (r : UserRow) => (r.id : Int) == uid) _ (by show ¬ ((b.id : Int) == uid) = true; rw [← hid]; exact hc)]
      exact find?_map_rowOut l1 l2 htl uid

/-! ## Concrete fixtures (used by the witnesses) -/

/-- A fixed creation timestamp for the concrete runs. -/
def now0 : String := "2025-01-01T00:00:00"

/-- Registration request for alice. -/
def aliceReq : UserCreate := ⟨"alice", "a@x.com", "secret"⟩

/-- Registration request for bob. -/
def bobReq : UserCreate := ⟨"bob", "b@x.com", "hunter2"⟩

/-- Registration request for carol. -/
def carolReq : UserCreate := ⟨"carol", "c@x.com", "pw3"⟩

/-- The row created for alice. -/
def row1 : UserRow := ⟨1, "alice", "a@x.com", hash_password "secret", now0⟩

/-- The row created for bob. -/
def row2 : UserRow := ⟨2, "bob", "b@x.com", hash_password "hunter2", now0⟩

/-- The row created for carol. -/
def row3 : UserRow := ⟨3, "carol", "c@x.com", hash_password "pw3", now0⟩

/-- The store after registering alice. -/
def db1 : DB := ⟨[row1], 2⟩

/-- The store after registering alice then bob. -/
def dbAB : DB := ⟨[row1, row2], 3⟩

/-- The store after registering alice, bob and carol. -/
def dbABC : DB := ⟨[row1, row2, row3], 4⟩

/-- Registering alice against the fresh store. -/
theorem create_alice : create_user init_db aliceReq now0 = (db1, .ok ⟨"회원가입 성공!"⟩) := rfl

/-- Registering bob afterwards. -/
theorem create_bob : create_user db1 bobReq now0 = (dbAB, .ok ⟨"회원가입 성공!"⟩) := rfl

/-- Registering carol afterwards. -/
theorem create_carol : create_user dbAB carolReq now0 = (dbABC, .ok ⟨"회원가입 성공!"⟩) := rfl

/-- The one-user store is reachable. -/
theorem db1_reachable : Reachable db1 := reachable_of_create Reachable.init create_alice

/-- The three-user store is reachable. -/
theorem dbABC_reachable : Reachable dbABC :=
  reachable_of_create (reachable_of_create db1_reachable create_bob) create_carol

/-! ## The claims -/

/-- C6: `hash_password` is a pure deterministic function: repeated calls on
the same plaintext agree, and for every plaintext the digest is a string of
exactly 64 lowercase hexadecimal characters (the 256-bit digest in hex),
regardless of the length of the input. -/
theorem hash_password_deterministic_fixed_hex (p : String) :
    hash_password p = hash_password p ∧
    (hash_password p).length = 64 ∧
    ∀ c ∈ (hash_password p).data, c ∈ hexDigits := by
  refine ⟨rfl, ?_, ?_⟩
  · show (String.mk _).length = 64
    rw [String.length_mk, length_flatMap_byteHex, digestBytes_length]
  · intro c hc
    exact mem_flatMap_byteHex hc

/-- C9: `POST /login` never modifies the store: whatever the outcome (200,
400 or 404), the handler returns the store it was given, so the rows after
the operation are exactly the rows before it. -/
theorem login_does_not_modify_store (db : DB) (u : UserLogin) :
    (login db u).1 = db ∧ (login db u).1.rows = db.rows :=
  ⟨login_fst db u, by rw [login_fst db u]⟩

/-- C10: every successful `POST /users` returns the same constant message
object, independent of the submitted username, email and password — in
particular the assigned id is not revealed — so any two successful
registrations produce equal response bodies. -/
theorem register_response_constant (dbA dbB dA dB : DB) (uA uB : UserCreate)
    (nA nB : String) (mA mB : Message)
    (hA : create_user dbA uA nA = (dA, .ok mA))
    (hB : create_user dbB uB nB = (dB, .ok mB)) :
    mA = ⟨"회원가입 성공!"⟩ ∧ mA = mB := by
  have h1 := (create_user_ok_elim hA).2.2
  have h2 := (create_user_ok_elim hB).2.2
  exact ⟨h1, h1.trans h2.symm⟩

/-- Witness for C10: two concrete successful registrations with different
usernames, emails and passwords both answer the constant message. -/
theorem register_response_constant_witness :
    (⟨"회원가입 성공!"⟩ : Message) = ⟨"회원가입 성공!"⟩ ∧
    (⟨"회원가입 성공!"⟩ : Message) = ⟨"회원가입 성공!"⟩ :=
  register_response_constant init_db db1 db1 dbAB aliceReq bobReq now0 now0 _ _
    create_alice create_bob

/-- C5: `GET /users` and `GET /users/{id}` return objects with exactly the
fields id, username, email and created_at, and their responses never
depend on — hence never include — the stored password digest: two stores
that agree after erasing passwords get identical responses. -/
theorem get_endpoints_exclude_password (db db' : DB)
    (h : db.rows.map rowOut = db'.rows.map rowOut) :
    get_users db =
      db.rows.map (fun r => (⟨r.id, r.username, r.email, r.created_at⟩ : UserOut)) ∧
    get_users db = get_users db' ∧
    ∀ uid : Int, get_user db uid = get_user db' uid := by
  refine ⟨rfl, h, ?_⟩
  intro uid
  rw [get_user_eq, get_user_eq, find?_map_rowOut db.rows db'.rows h uid]

/-- Witness for C5: the one-user store and the same store with the digest
replaced by an unrelated string answer both GET endpoints identically. -/
theorem get_endpoints_exclude_password_witness :
    get_users db1 = get_users (⟨[⟨1, "alice", "a@x.com", "REDACTED", now0⟩], 2⟩ : DB) ∧
    get_user db1 1 = get_user (⟨[⟨1, "alice", "a@x.com", "REDACTED", now0⟩], 2⟩ : DB) 1 := by
  have h := get_endpoints_exclude_password db1
    ⟨[⟨1, "alice", "a@x.com", "REDACTED", now0⟩], 2⟩ (by decide)
  exact ⟨h.2.1, h.2.2 1⟩

/-- C1: after a successful registration with password p, a login with that
username and the same password succeeds, and a login with any password
whose hash differs from hash(p) fails with HTTP 400 (CredentialMismatch). -/
theorem register_then_login (db db' : DB) (u : UserCreate) (now : String) (m : Message)
    (h1 : create_user db u now = (db', .ok m)) :
    login db' ⟨u.username, u.password⟩ = (db', .ok ⟨u.username ++ "님 환영합니다."⟩) ∧
    ∀ p' : String, hash_password p' ≠ hash_password u.password →
      login db' ⟨u.username, p'⟩ = (db', .error ⟨400, "비밀번호가 다릅니다."⟩) := by
  obtain ⟨hfresh, hdb, -⟩ := create_user_ok_elim h1
  subst hdb
  have key : ∀ p' : String,
      login ⟨db.rows ++ [newRow db u now], db.nextId + 1⟩ ⟨u.username, p'⟩ =
        if hash_password p' ≠ hash_password u.password then
          (⟨db.rows ++ [newRow db u now], db.nextId + 1⟩, .error ⟨400, "비밀번호가 다릅니다."⟩)
        else
          (⟨db.rows ++ [newRow db u now], db.nextId + 1⟩,
           .ok ⟨u.username ++ "님 환영합니다."⟩) := by
    intro p'
    unfold login
    dsimp only
    rw [find?_newRow hfresh]
    rfl
  constructor
  · rw [key u.password, if_neg (by simp)]
  · intro p' hp
    rw [key p', if_pos hp]

set_option maxRecDepth 100000 in
/-- Witness for C1: registering alice with password "secret", the login
with "secret" succeeds and the login with "wrong" (whose SHA-256 digest
differs) is a 400. -/
theorem register_then_login_witness :
    login db1 ⟨"alice", "secret"⟩ = (db1, .ok ⟨"alice님 환영합니다."⟩) ∧
    login db1 ⟨"alice", "wrong"⟩ = (db1, .error ⟨400, "비밀번호가 다릅니다."⟩) := by
  have h := register_then_login init_db db1 aliceReq now0 ⟨"회원가입 성공!"⟩ create_alice
  exact ⟨h.1, h.2 "wrong" (by decide)⟩

/-- C2: registering a username that already exists fails with HTTP 400 and
leaves the store unchanged; hence after a successful registration of u
followed by a second registration of u, exactly one row with username u
exists. -/
theorem duplicate_registration (db dbA : DB) (u u2 : UserCreate) (now now2 : String)
    (m : Message) (hname : u2.username = u.username)
    (h1 : create_user db u now = (dbA, .ok m)) :
    (∀ (db0 : DB) (v : UserCreate) (nv : String) (r : UserRow),
        r ∈ db0.rows → r.username = v.username →
        create_user db0 v nv = (db0, .error ⟨400, "이미 존재하는 유저입니다."⟩)) ∧
    create_user dbA u2 now2 = (dbA, .error ⟨400, "이미 존재하는 유저입니다."⟩) ∧
    (dbA.rows.filter (fun r => r.username == u.username)).length = 1 := by
  obtain ⟨hfresh, hdb, -⟩ := create_user_ok_elim h1
  subst hdb
  refine ⟨fun db0 v nv r hr hn => create_user_dup r hr hn, ?_, ?_⟩
  · refine create_user_dup (newRow db u now) ?_ ?_
    · exact List.mem_append.mpr (Or.inr (List.mem_singleton.mpr rfl))
    · exact hname.symm
  · show ((db.rows ++ [newRow db u now]).filter (fun r => r.username == u.username)).length = 1
    rw [List.filter_append]
    have hnil : db.rows.filter (fun r => r.username == u.username) = [] :=
      List.filter_eq_nil_iff.mpr (fun r hr => by simp [hfresh r hr])
    rw [hnil]
    simp [newRow]

/-- Witness for C2: after alice is registered, registering "alice" again
(with different email and password) is a 400 that leaves the store as it
was, and exactly one alice row exists. -/
theorem duplicate_registration_witness :
    create_user db1 ⟨"alice", "b@y.com", "other"⟩ "2025-01-02T00:00:00" =
      (db1, .error ⟨400, "이미 존재하는 유저입니다."⟩) ∧
    (db1.rows.filter (fun r => r.username == "alice")).length = 1 := by
  have h := duplicate_registration init_db db1 aliceReq ⟨"alice", "b@y.com", "other"⟩
    now0 "2025-01-02T00:00:00" ⟨"회원가입 성공!"⟩ rfl create_alice
  exact ⟨h.2.1, h.2.2⟩

/-- C3: `POST /login` answers 404 when no row has the given username, 400
when a row exists but the hash of the supplied password differs from the
stored digest, and success with a message containing the username when
they match; the 404 and 400 responses are distinguishable. -/
theorem login_status_cases (db : DB) (u : UserLogin) :
    (db.rows.find? (fun r => r.username == u.username) = none →
      login db u = (db, .error ⟨404, "아이디 또는 비밀번호가 다릅니다."⟩)) ∧
    (∀ r : UserRow, db.rows.find? (fun s => s.username == u.username) = some r →
      hash_password u.password ≠ r.password →
      login db u = (db, .error ⟨400, "비밀번호가 다릅니다."⟩)) ∧
    (∀ r : UserRow, db.rows.find? (fun s => s.username == u.username) = some r →
      hash_password u.password = r.password →
      login db u = (db, .ok ⟨u.username ++ "님 환영합니다."⟩)) ∧
    ∀ (db2 : DB) (u2 : UserLogin) (r : UserRow),
      db.rows.find? (fun s => s.username == u.username) = none →
      db2.rows.find? (fun s => s.username == u2.username) = some r →
      hash_password u2.password ≠ r.password →
      (login db u).2 ≠ (login db2 u2).2 := by
  refine ⟨fun h => login_no_user h, ?_, ?_, ?_⟩
  · intro r hf hp
    rw [login_found hf, if_pos hp]
  · intro r hf hp
    rw [login_found hf, if_neg (by simp [hp])]
  · intro db2 u2 r h404 hf hp
    rw [login_no_user h404, login_found hf, if_pos hp]
    dsimp only
    simp only [ne_eq, Except.error.injEq]
    decide

set_option maxRecDepth 100000 in
/-- Witness for C3: on the one-user store, logging in as an unknown user
is a 404, as alice with the wrong password a 400, as alice with the right
password a welcome message naming alice, and the 404 and 400 bodies
differ. -/
theorem login_status_cases_witness :
    login db1 ⟨"bob", "x"⟩ = (db1, .error ⟨404, "아이디 또는 비밀번호가 다릅니다."⟩) ∧
    login db1 ⟨"alice", "wrong"⟩ = (db1, .error ⟨400, "비밀번호가 다릅니다."⟩) ∧
    login db1 ⟨"alice", "secret"⟩ = (db1, .ok ⟨"alice님 환영합니다."⟩) ∧
    (login db1 ⟨"bob", "x"⟩).2 ≠ (login db1 ⟨"alice", "wrong"⟩).2 := by
  have h1 := login_status_cases db1 ⟨"bob", "x"⟩
  have h2 := login_status_cases db1 ⟨"alice", "wrong"⟩
  have h3 := login_status_cases db1 ⟨"alice", "secret"⟩
  exact ⟨h1.1 rfl, h2.2.1 row1 rfl (by decide), h3.2.2.1 row1 rfl rfl,
    h1.2.2.2 db1 ⟨"alice", "wrong"⟩ row1 rfl rfl (by decide)⟩

/-- C4: in every reachable store state, the password field of every
persisted row is a `hash_password` image, and the row persisted by any
registration carries exactly `hash_password` of the plaintext supplied in
that registration — no operation persists the plaintext. -/
theorem stored_passwords_hashed (db : DB) (hdb : Reachable db) :
    (∀ r ∈ db.rows, ∃ p, r.password = hash_password p) ∧
    ∀ (u : UserCreate) (now : String) (r : UserRow),
      r ∈ (create_user db u now).1.rows → r ∉ db.rows →
      r.password = hash_password u.password := by
  refine ⟨(reachable_inv hdb).2.2.2, ?_⟩
  intro u now r hr hnot
  by_cases hdup : ∃ s ∈ db.rows, s.username = u.username
  · obtain ⟨s, hs, hname⟩ := hdup
    rw [create_user_dup s hs hname] at hr
    exact absurd hr hnot
  · push_neg at hdup
    rw [create_user_new hdup] at hr
    rcases List.mem_append.mp hr with hold | hnew
    · exact absurd hold hnot
    · rw [List.mem_singleton.mp hnew]
      rfl

/-- Witness for C4: instantiated at the reachable one-user store. -/
theorem stored_passwords_hashed_witness :
    (∀ r ∈ db1.rows, ∃ p, r.password = hash_password p) ∧
    ∀ (u : UserCreate) (now : String) (r : UserRow),
      r ∈ (create_user db1 u now).1.rows → r ∉ db1.rows →
      r.password = hash_password u.password :=
  stored_passwords_hashed db1 db1_reachable

/-- C7: on a reachable store, `GET /users/{id}` answers 404 with the error
body for every id no row carries, and 200 with that row's projected object
for every id some row carries. -/
theorem get_user_found_or_404 (db : DB) (hdb : Reachable db) (uid : Int) :
    ((∀ r ∈ db.rows, (r.id : Int) ≠ uid) →
      get_user db uid = .error ⟨404, "User not found"⟩) ∧
    ∀ r ∈ db.rows, (r.id : Int) = uid → get_user db uid = .ok (rowOut r) := by
  constructor
  · intro hnone
    have h : db.rows.find? (fun r => (r.id : Int) == uid) = none :=
      List.find?_eq_none.mpr (fun r hr => by simp [hnone r hr])
    rw [get_user_eq, h]
    rfl
  · intro r hr hid
    have h := find?_by_id (reachable_inv hdb).2.1 hr hid
    rw [get_user_eq, h]
    rfl

/-- Witness for C7: on the one-user store, id 999 is a 404 and id 1 is
alice's projected object. -/
theorem get_user_found_or_404_witness :
    get_user db1 999 = .error ⟨404, "User not found"⟩ ∧
    get_user db1 1 = .ok (rowOut row1) := by
  have h1 := get_user_found_or_404 db1 db1_reachable 999
  have h2 := get_user_found_or_404 db1 db1_reachable 1
  exact ⟨h1.1 (by decide), h2.2 row1 (List.mem_cons_self row1 []) rfl⟩

/-- C8: on every reachable store, ids are system-generated, pairwise
distinct and strictly increasing along insertion order, and `GET /users`
returns the rows in exactly that insertion order. -/
theorem ids_increasing_insertion_order (db : DB) (hdb : Reachable db) :
    get_users db = db.rows.map rowOut ∧
    List.Chain' (· < ·) ((get_users db).map UserOut.id) ∧
    List.Pairwise (· ≠ ·) ((get_users db).map UserOut.id) := by
  obtain ⟨-, hlt, -, -⟩ := reachable_inv hdb
  have hmap : (get_users db).map UserOut.id = db.rows.map (fun r => r.id) := by
    simp [get_users, rowOut]
  refine ⟨rfl, ?_, ?_⟩
  · rw [hmap]
    exact (List.pairwise_map.mpr hlt).chain'
  · rw [hmap]
    exact List.pairwise_map.mpr (hlt.imp (fun h => Nat.ne_of_lt h))

/-- Witness for C8: the reachable store holding alice, bob and carol in
registration order lists them in order with strictly increasing ids. -/
theorem ids_increasing_insertion_order_witness :
    get_users dbABC = dbABC.rows.map rowOut ∧
    List.Chain' (· < ·) ((get_users dbABC).map UserOut.id) ∧
    List.Pairwise (· ≠ ·) ((get_users dbABC).map UserOut.id) :=
  ids_increasing_insertion_order dbABC dbABC_reachable

/-- Witness for C6: instantiated at the concrete plaintext "abc". -/
theorem hash_password_deterministic_fixed_hex_witness :
    hash_password "abc" = hash_password "abc" ∧
    (hash_password "abc").length = 64 ∧
    ∀ c ∈ (hash_password "abc").data, c ∈ hexDigits :=
  hash_password_deterministic_fixed_hex "abc"

/-- Witness for C9: a concrete login attempt against the one-user store
leaves it untouched. -/
theorem login_does_not_modify_store_witness :
    (login db1 ⟨"alice", "secret"⟩).1 = db1 ∧
    (login db1 ⟨"alice", "secret"⟩).1.rows = db1.rows :=
  login_does_not_modify_store db1 ⟨"alice", "secret"⟩

end UserServer
